import Mathlib

/-!
Verification development for the caido-notify backend
(`packages/backend/src/index.ts`, with the database variant in
`packages/backend/src/types.ts` behaviourally identical on everything
modelled here).

The periodic pipeline `checkAndSendFindings` is embedded as a pure
function over its inputs: the clock value `now`, the exclusion list, the
persisted sent-log, the notify configuration, the outcome of the upstream
GraphQL findings query, and an oracle giving the outcome of each
per-reporter external notifier process.  File paths, message formatting
and logging are not modelled; the reads of the exclusion list, sent-log
and configuration are modelled as already successful (their error paths
return early and touch nothing).  JavaScript `Set`s and records are
modelled as lists with exact string equality and first-match lookup,
matching `Set.has` and `Object.keys(...).find` semantics.
-/

namespace CaidoNotify

/-- Result type of the backend operations (`Result<T>` in `index.ts`). -/
inductive Result (α : Type) where
  | ok (value : α)
  | error (msg : String)
deriving DecidableEq

/-- Destination kind: the `"id" | "provider"` union type. -/
inductive IdsKind where
  | id
  | provider
deriving DecidableEq

/-- A finding as fetched from the GraphQL query.  `createdAt` holds the
result of `new Date(f.createdAt).getTime()`: `some t` when the field is
present and parseable, `none` when absent or `NaN`. -/
structure Finding where
  id : String
  title : String
  description : Option String
  reporter : String
  createdAt : Option Int
deriving DecidableEq

/-- An entry of the persisted sent-log (`SentFinding` in `index.ts`). -/
structure SentFinding where
  findingId : String
  timestamp : Int
deriving DecidableEq

/-- The notify configuration (`NotifyConfig` in `index.ts`).  The two
record fields are association lists in key-insertion order. -/
structure NotifyConfig where
  defaultIds : Option String := none
  defaultIdsType : Option IdsKind := none
  customFindingIds : List (String × String) := []
  customFindingIdsType : List (String × IdsKind) := []
deriving DecidableEq

/-- One hour in milliseconds (`60 * 60 * 1000` in `checkAndSendFindings`). -/
def oneHourMs : Int := 60 * 60 * 1000

/-- Derived timestamp of a finding: the parsed `createdAt` when present
and parseable, otherwise `now` (lines 555-561 of `index.ts`). -/
def findingTimestamp (now : Int) (f : Finding) : Int :=
  f.createdAt.getD now

/-- Pruning of the sent-log:
`sentFindings.filter((f) => f.timestamp > oneHourAgo)` (line 495). -/
def cleanSentFindings (now : Int) (sent : List SentFinding) : List SentFinding :=
  sent.filter (fun f => now - oneHourMs < f.timestamp)

/-- Finding ids of the pruned log:
`new Set(cleanedSentFindings.map((f) => f.findingId))` (line 501). -/
def finalSentIdsOf (cleaned : List SentFinding) : List String :=
  cleaned.map (fun f => f.findingId)

/-- Recency filter:
`allFindings.filter((finding) => finding.getTimestamp() > oneHourAgo)`
(lines 579-581). -/
def recentFindings (now : Int) (fs : List Finding) : List Finding :=
  fs.filter (fun f => now - oneHourMs < findingTimestamp now f)

/-- Dedup filter over the recent findings (lines 583-590): keep a finding
iff its id is not excluded, its reporter is not excluded (both by exact
`Set.has` membership), and its id is not among the pruned sent ids. -/
def newFindingsOf (excluded : List String) (finalSentIds : List String)
    (recents : List Finding) : List Finding :=
  recents.filter (fun f =>
    !(excluded.contains f.id) && !(excluded.contains f.reporter)
      && !(finalSentIds.contains f.id))

/-- The findings a run selects for sending: the composition of the
recency filter and the dedup filter, with the sent ids taken from the
pruned log, exactly as `checkAndSendFindings` computes `newFindings`. -/
def selectedFindings (now : Int) (excluded : List String)
    (sentLog : List SentFinding) (fs : List Finding) : List Finding :=
  newFindingsOf excluded (finalSentIdsOf (cleanSentFindings now sentLog))
    (recentFindings now fs)

/-- ASCII lowercasing of a string, modelling JavaScript `toLowerCase()`
on the ASCII range (uppercase ASCII letters are mapped to lowercase,
every other character is unchanged). -/
def lowerAscii (s : String) : String :=
  String.mk (s.data.map Char.toLower)

/-- Record lookup by exact key (`config.customFindingIds[reporterKey]`). -/
def lookupRecord {α : Type} (m : List (String × α)) (k : String) : Option α :=
  (m.find? (fun kv => kv.1 == k)).map (fun kv => kv.2)

/-- Destination resolution for one reporter group (lines 640-657):
`Object.keys(config.customFindingIds).find((key) => key.toLowerCase()
=== reporter.toLowerCase())`; when a key matches up to ASCII case, the
override destination is used and its kind is looked up in
`customFindingIdsType`, falling back to the default kind; otherwise the
default destination and kind are used. -/
def resolveDestination (config : NotifyConfig) (defaultNotifyIds : String)
    (defaultKind : IdsKind) (reporter : String) : String × IdsKind :=
  match config.customFindingIds.find?
      (fun kv => lowerAscii kv.1 == lowerAscii reporter) with
  | some kv =>
      (kv.2, (lookupRecord config.customFindingIdsType kv.1).getD defaultKind)
  | none => (defaultNotifyIds, defaultKind)

/-- Insert a finding into the reporter-grouped map, preserving JS `Map`
insertion order (lines 628-634). -/
def insertGroup (groups : List (String × List Finding)) (f : Finding) :
    List (String × List Finding) :=
  if groups.any (fun g => g.1 == f.reporter) then
    groups.map (fun g => if g.1 == f.reporter then (g.1, g.2 ++ [f]) else g)
  else groups ++ [(f.reporter, [f])]

/-- Grouping of the selected findings by exact reporter string. -/
def groupByReporter (fs : List Finding) : List (String × List Finding) :=
  fs.foldl insertGroup []

/-- Outcome of one spawned notifier process for a reporter group. -/
inductive SpawnOutcome where
  | exited (code : Int)
  | timeout
  | spawnError (msg : String)
deriving DecidableEq

/-- Settlement of one per-group send promise (lines 672-710): the
30-second watchdog resolves success; the `close` event resolves success
for every exit code (a non-zero code is only logged); only the `error`
event (process failed to start) resolves an error value. -/
def sendPromiseResult : SpawnOutcome → Result Unit
  | .exited _ => .ok ()
  | .timeout => .ok ()
  | .spawnError msg => .error ("Failed to execute notify: " ++ msg)

/-- Outcome of the upstream findings query.  `gqlErrors` carries a
response whose `errors` array is non-empty (first message and rest);
`missingNodes` is a response without `data.findings.nodes`; `thrown` is
an exception reaching the surrounding `try`/`catch`. -/
inductive FetchOutcome where
  | gqlErrors (firstMsg : String) (moreMsgs : List String)
  | missingNodes
  | nodes (findings : List Finding)
  | thrown (msg : String)

/-- One external notifier invocation started by the fan-out loop. -/
structure Invocation where
  reporter : String
  notifyIds : String
  idsKind : IdsKind
  findings : List Finding
deriving DecidableEq

/-- Observable events of a run, in program order: persisting the
sent-log (`saveSentFindings`) and starting a notifier process. -/
inductive Event where
  | saveSent (log : List SentFinding)
  | invoke (inv : Invocation)
deriving DecidableEq

/-- Invocations produced by the fan-out loop (lines 638-713): one per
reporter group, each with the group's resolved destination — the
override when a key of `customFindingIds` matches the reporter up to
case, the default destination and kind otherwise. -/
def fanoutInvocations (config : NotifyConfig) (newFindings : List Finding) :
    List Invocation :=
  (groupByReporter newFindings).map (fun g =>
    let dest := resolveDestination config (config.defaultIds.getD "")
      (config.defaultIdsType.getD IdsKind.id) g.1
    Invocation.mk g.1 dest.1 dest.2 g.2)

/-- The result of one run of `checkAndSendFindings`: the returned
`Result`, the persisted sent-log after the run, the event trace, and the
settled per-group promise results (the values `Promise.all` collects and
the code then discards). -/
structure RunResult where
  result : Result Unit
  sentLog : List SentFinding
  events : List Event
  groupResults : List (Result Unit)
deriving DecidableEq

/-- The invocations started during a run, in start order. -/
def invocationsOf (r : RunResult) : List Invocation :=
  r.events.filterMap (fun e =>
    match e with
    | .invoke inv => some inv
    | .saveSent _ => none)

/-- One run of `checkAndSendFindings` (lines 464-731 of `index.ts`).
In order: prune the sent-log and persist it when it shrank (lines
495-499); query the findings source; on a non-empty `errors` array or a
thrown exception return an error; derive timestamps, apply the recency
and dedup filters; if nothing is selected return success; append the
selected findings to the pruned log and persist it before any dispatch
(lines 596-606); abort with `"No notify IDs configured"` when the
default destination resolves empty (lines 613-619); otherwise group by
reporter, resolve each group's destination, start one notifier process
per group and settle every per-group promise, discarding the settled
values, and return success. -/
def checkAndSendFindings (now : Int) (excluded : List String)
    (sentLog : List SentFinding) (config : NotifyConfig)
    (fetch : FetchOutcome) (outcomes : String → SpawnOutcome) : RunResult :=
  let cleaned := cleanSentFindings now sentLog
  let log1 := if cleaned.length ≠ sentLog.length then cleaned else sentLog
  let pruneEvents : List Event :=
    if cleaned.length ≠ sentLog.length then [Event.saveSent cleaned] else []
  match fetch with
  | .gqlErrors firstMsg moreMsgs =>
      { result := .error ("GraphQL query failed: "
          ++ String.intercalate ", " (firstMsg :: moreMsgs)),
        sentLog := log1, events := pruneEvents, groupResults := [] }
  | .missingNodes =>
      { result := .ok (), sentLog := log1, events := pruneEvents,
        groupResults := [] }
  | .thrown msg =>
      { result := .error ("Failed to check findings: " ++ msg),
        sentLog := log1, events := pruneEvents, groupResults := [] }
  | .nodes fs =>
      let newFindings := selectedFindings now excluded sentLog fs
      if newFindings.isEmpty then
        { result := .ok (), sentLog := log1, events := pruneEvents,
          groupResults := [] }
      else
        let newSentFindings := newFindings.map
          (fun f => SentFinding.mk f.id (findingTimestamp now f))
        let updatedSent := cleaned ++ newSentFindings
        let defaultNotifyIds := config.defaultIds.getD ""
        if defaultNotifyIds = "" then
          { result := .error "No notify IDs configured",
            sentLog := updatedSent,
            events := pruneEvents ++ [Event.saveSent updatedSent],
            groupResults := [] }
        else
          let invs := fanoutInvocations config newFindings
          { result := .ok (),
            sentLog := updatedSent,
            events := pruneEvents ++ Event.saveSent updatedSent
              :: invs.map Event.invoke,
            groupResults := invs.map
              (fun inv => sendPromiseResult (outcomes inv.reporter)) }

/-- Module-level backend state relevant to the scheduler: the check-delay
cache and the interval timer.  The timer is modelled as `some (g, d)`
where `g` is a generation number (fresh on every arm, so cancelling and
re-arming is observable) and `d` the armed period; `nextGen` supplies
fresh generations. -/
structure BackendState where
  checkDelayCache : Int
  timer : Option (Nat × Int)
  nextGen : Nat
deriving DecidableEq

/-- The `saveCheckDelay` operation (lines 320-333): rejects any delay
below 1000 ms without touching the cache, otherwise stores the delay. -/
def saveCheckDelay (delay : Int) (st : BackendState) :
    Result Unit × BackendState :=
  if delay < 1000 then
    (.error "Delay must be at least 1000ms (1 second)", st)
  else
    (.ok (), { st with checkDelayCache := delay })

/-- The `startCheckingFindings` operation (lines 762-777): cancel the
active timer if any and arm a fresh repeating timer at the cached delay. -/
def startCheckingFindings (st : BackendState) : BackendState :=
  { st with
    timer := some (st.nextGen, st.checkDelayCache)
    nextGen := st.nextGen + 1 }

/-- The registered `saveCheckDelay` API wrapper (lines 791-797): run
`saveCheckDelay`, and restart the timer only when it returned success. -/
def saveCheckDelayApi (delay : Int) (st : BackendState) :
    Result Unit × BackendState :=
  match saveCheckDelay delay st with
  | (Result.ok v, st1) => (Result.ok v, startCheckingFindings st1)
  | (Result.error e, st1) => (Result.error e, st1)

theorem mem_cleanSentFindings {now : Int} {sent : List SentFinding}
    {e : SentFinding} :
    e ∈ cleanSentFindings now sent ↔ e ∈ sent ∧ now - oneHourMs < e.timestamp := by
  simp [cleanSentFindings, List.mem_filter]

theorem mem_selectedFindings {now : Int} {excluded : List String}
    {sentLog : List SentFinding} {fs : List Finding} {f : Finding} :
    f ∈ selectedFindings now excluded sentLog fs ↔
      f ∈ fs ∧ now - oneHourMs < findingTimestamp now f ∧
        f.id ∉ excluded ∧ f.reporter ∉ excluded ∧
        f.id ∉ finalSentIdsOf (cleanSentFindings now sentLog) := by
  simp [selectedFindings, newFindingsOf, recentFindings, List.mem_filter,
    List.contains, List.elem_iff, and_assoc]
  tauto

theorem not_selected_of_logged_entry {now : Int} {excluded : List String}
    {sentLog : List SentFinding} {fs : List Finding} {f : Finding} {t : Int}
    (hmem : SentFinding.mk f.id t ∈ sentLog) (ht : now - oneHourMs < t) :
    f ∉ selectedFindings now excluded sentLog fs := by
  intro h
  rcases mem_selectedFindings.mp h with ⟨-, -, -, -, hid⟩
  refine hid ?_
  simp only [finalSentIdsOf, List.mem_map]
  exact ⟨SentFinding.mk f.id t, mem_cleanSentFindings.mpr ⟨hmem, ht⟩, rfl⟩

theorem not_selected_of_parseable_logged {now : Int} {excluded : List String}
    {sentLog : List SentFinding} {fs : List Finding} {f : Finding} {t : Int}
    (hc : f.createdAt = some t) (hmem : SentFinding.mk f.id t ∈ sentLog) :
    f ∉ selectedFindings now excluded sentLog fs := by
  by_cases ht : now - oneHourMs < t
  · exact not_selected_of_logged_entry hmem ht
  · intro h
    rcases mem_selectedFindings.mp h with ⟨-, hrec, -⟩
    rw [findingTimestamp, hc] at hrec
    exact ht hrec

theorem selected_of_pruned_unparseable {now : Int} {excluded : List String}
    {sentLog : List SentFinding} {fs : List Finding} {f : Finding}
    (hc : f.createdAt = none) (hf : f ∈ fs)
    (hid : f.id ∉ excluded) (hrep : f.reporter ∉ excluded)
    (hold : ∀ e ∈ sentLog, e.findingId = f.id → e.timestamp ≤ now - oneHourMs) :
    f ∈ selectedFindings now excluded sentLog fs := by
  refine mem_selectedFindings.mpr ⟨hf, ?_, hid, hrep, ?_⟩
  · rw [findingTimestamp, hc]
    simp [oneHourMs]
  · intro hmem
    simp only [finalSentIdsOf, List.mem_map] at hmem
    rcases hmem with ⟨e, he, heq⟩
    rcases mem_cleanSentFindings.mp he with ⟨hes, het⟩
    exact absurd het (not_lt.mpr (hold e hes heq))

theorem prunedLog_eq_clean (now : Int) (sent : List SentFinding) :
    (if (cleanSentFindings now sent).length ≠ sent.length
      then cleanSentFindings now sent else sent) = cleanSentFindings now sent := by
  split
  · rfl
  · next h =>
    push_neg at h
    exact (List.filter_eq_self.mpr (List.filter_length_eq_length.mp h)).symm

theorem filterMap_invoke_of_map (l : List Invocation) :
    (l.map Event.invoke).filterMap (fun e =>
      match e with
      | .invoke inv => some inv
      | .saveSent _ => none) = l := by
  induction l with
  | nil => rfl
  | cons a l ih => simp [List.filterMap_cons, ih]

theorem filterMap_invoke_saves (c : Prop) [Decidable c]
    (l u : List SentFinding) :
    ((if c then [Event.saveSent l] else [])
        ++ [Event.saveSent u]).filterMap (fun e =>
      match e with
      | .invoke inv => some inv
      | .saveSent _ => none) = [] := by
  split <;> simp [List.filterMap_cons]

theorem run_nodes_result_ok (now : Int) (excluded : List String)
    (sentLog : List SentFinding) (config : NotifyConfig) (fs : List Finding)
    (outcomes : String → SpawnOutcome)
    (hdef : config.defaultIds.getD "" ≠ "") :
    (checkAndSendFindings now excluded sentLog config (.nodes fs)
      outcomes).result = .ok () := by
  simp only [checkAndSendFindings]
  split <;> simp_all

theorem run_nodes_sentLog (now : Int) (excluded : List String)
    (sentLog : List SentFinding) (config : NotifyConfig) (fs : List Finding)
    (outcomes : String → SpawnOutcome)
    (hsel : selectedFindings now excluded sentLog fs ≠ []) :
    (checkAndSendFindings now excluded sentLog config (.nodes fs)
        outcomes).sentLog
      = cleanSentFindings now sentLog
        ++ (selectedFindings now excluded sentLog fs).map
          (fun f => SentFinding.mk f.id (findingTimestamp now f)) := by
  simp only [checkAndSendFindings]
  rw [if_neg (by simpa [List.isEmpty_iff] using hsel)]
  split <;> rfl

theorem run_nodes_events_dispatch (now : Int) (excluded : List String)
    (sentLog : List SentFinding) (config : NotifyConfig) (fs : List Finding)
    (outcomes : String → SpawnOutcome)
    (hsel : selectedFindings now excluded sentLog fs ≠ [])
    (hdef : config.defaultIds.getD "" ≠ "") :
    (checkAndSendFindings now excluded sentLog config (.nodes fs)
        outcomes).events
      = (if (cleanSentFindings now sentLog).length ≠ sentLog.length
          then [Event.saveSent (cleanSentFindings now sentLog)] else [])
        ++ Event.saveSent (cleanSentFindings now sentLog
            ++ (selectedFindings now excluded sentLog fs).map
              (fun f => SentFinding.mk f.id (findingTimestamp now f)))
          :: (fanoutInvocations config
            (selectedFindings now excluded sentLog fs)).map Event.invoke := by
  simp only [checkAndSendFindings]
  rw [if_neg (by simpa [List.isEmpty_iff] using hsel), if_neg hdef]

theorem run_nodes_events_noDefault (now : Int) (excluded : List String)
    (sentLog : List SentFinding) (config : NotifyConfig) (fs : List Finding)
    (outcomes : String → SpawnOutcome)
    (hsel : selectedFindings now excluded sentLog fs ≠ [])
    (hdef : config.defaultIds.getD "" = "") :
    (checkAndSendFindings now excluded sentLog config (.nodes fs)
        outcomes).events
      = (if (cleanSentFindings now sentLog).length ≠ sentLog.length
          then [Event.saveSent (cleanSentFindings now sentLog)] else [])
        ++ [Event.saveSent (cleanSentFindings now sentLog
            ++ (selectedFindings now excluded sentLog fs).map
              (fun f => SentFinding.mk f.id (findingTimestamp now f)))] := by
  simp only [checkAndSendFindings]
  rw [if_neg (by simpa [List.isEmpty_iff] using hsel), if_pos hdef]

theorem run_nodes_groupResults (now : Int) (excluded : List String)
    (sentLog : List SentFinding) (config : NotifyConfig) (fs : List Finding)
    (outcomes : String → SpawnOutcome)
    (hsel : selectedFindings now excluded sentLog fs ≠ [])
    (hdef : config.defaultIds.getD "" ≠ "") :
    (checkAndSendFindings now excluded sentLog config (.nodes fs)
        outcomes).groupResults
      = (fanoutInvocations config
          (selectedFindings now excluded sentLog fs)).map
        (fun inv => sendPromiseResult (outcomes inv.reporter)) := by
  simp only [checkAndSendFindings]
  rw [if_neg (by simpa [List.isEmpty_iff] using hsel), if_neg hdef]

theorem run_nodes_invocations (now : Int) (excluded : List String)
    (sentLog : List SentFinding) (config : NotifyConfig) (fs : List Finding)
    (outcomes : String → SpawnOutcome)
    (hsel : selectedFindings now excluded sentLog fs ≠ [])
    (hdef : config.defaultIds.getD "" ≠ "") :
    invocationsOf (checkAndSendFindings now excluded sentLog config (.nodes fs)
        outcomes)
      = fanoutInvocations config (selectedFindings now excluded sentLog fs) := by
  rw [invocationsOf,
    run_nodes_events_dispatch now excluded sentLog config fs outcomes hsel hdef]
  rw [List.filterMap_append]
  rw [List.filterMap_cons]
  simp only [filterMap_invoke_of_map]
  split <;> simp [List.filterMap_cons]

theorem run_nodes_noDefault (now : Int) (excluded : List String)
    (sentLog : List SentFinding) (config : NotifyConfig) (fs : List Finding)
    (outcomes : String → SpawnOutcome)
    (hsel : selectedFindings now excluded sentLog fs ≠ [])
    (hdef : config.defaultIds.getD "" = "") :
    (checkAndSendFindings now excluded sentLog config (.nodes fs)
        outcomes).result = .error "No notify IDs configured"
      ∧ invocationsOf (checkAndSendFindings now excluded sentLog config
          (.nodes fs) outcomes) = [] := by
  constructor
  · simp only [checkAndSendFindings]
    rw [if_neg (by simpa [List.isEmpty_iff] using hsel), if_pos hdef]
  · rw [invocationsOf, run_nodes_events_noDefault now excluded sentLog config
      fs outcomes hsel hdef]
    exact filterMap_invoke_saves _ _ _

theorem run_nodes_empty_result (now : Int) (excluded : List String)
    (sentLog : List SentFinding) (config : NotifyConfig) (fs : List Finding)
    (outcomes : String → SpawnOutcome)
    (hsel : selectedFindings now excluded sentLog fs = []) :
    (checkAndSendFindings now excluded sentLog config (.nodes fs)
      outcomes).result = .ok () := by
  simp only [checkAndSendFindings]
  rw [if_pos (by simpa [List.isEmpty_iff] using hsel)]

theorem run_sentLog_recent (now : Int) (excluded : List String)
    (sentLog : List SentFinding) (config : NotifyConfig)
    (fetch : FetchOutcome) (outcomes : String → SpawnOutcome) :
    ∀ e ∈ (checkAndSendFindings now excluded sentLog config fetch
      outcomes).sentLog, now - oneHourMs < e.timestamp := by
  intro e he
  have hclean : ∀ x ∈ cleanSentFindings now sentLog,
      now - oneHourMs < x.timestamp :=
    fun x hx => (mem_cleanSentFindings.mp hx).2
  cases fetch with
  | gqlErrors m ms =>
      rw [checkAndSendFindings.eq_def] at he
      simp only [prunedLog_eq_clean] at he
      exact hclean e he
  | missingNodes =>
      rw [checkAndSendFindings.eq_def] at he
      simp only [prunedLog_eq_clean] at he
      exact hclean e he
  | thrown m =>
      rw [checkAndSendFindings.eq_def] at he
      simp only [prunedLog_eq_clean] at he
      exact hclean e he
  | nodes fs =>
      by_cases hsel : selectedFindings now excluded sentLog fs = []
      · rw [checkAndSendFindings.eq_def] at he
        simp only [if_pos (List.isEmpty_iff.mpr hsel), prunedLog_eq_clean] at he
        exact hclean e he
      · rw [run_nodes_sentLog now excluded sentLog config fs outcomes hsel] at he
        rcases List.mem_append.mp he with h | h
        · exact hclean e h
        · rcases List.mem_map.mp h with ⟨f, hf, rfl⟩
          exact (mem_selectedFindings.mp hf).2.1

/-- Claim C6: every finding whose derived timestamp is at most
`now - 3600000` is excluded from the kept set by the filter stage of
`checkAndSendFindings`, regardless of its exclusion or sent status; and
concretely, with empty exclusion list and empty sent-log, a finding
created 10 minutes ago and one created 2 hours ago yield a kept set
holding exactly the 10-minute finding, in source order. -/
theorem C6_recency_filter :
    (∀ (now : Int) (excluded : List String) (sentLog : List SentFinding)
      (fs : List Finding) (f : Finding),
        findingTimestamp now f ≤ now - 3600000 →
          f ∉ selectedFindings now excluded sentLog fs)
    ∧ ∀ now : Int,
        selectedFindings now [] []
          [Finding.mk "f1" "t1" none "R1" (some (now - 600000)),
            Finding.mk "f2" "t2" none "R1" (some (now - 7200000))]
        = [Finding.mk "f1" "t1" none "R1" (some (now - 600000))] := by
  constructor
  · intro now excluded sentLog fs f hold hmem
    have hrec := (mem_selectedFindings.mp hmem).2.1
    simp only [oneHourMs] at hrec
    omega
  · intro now
    have h1 : now - 3600000 < now - 600000 := by omega
    have h2 : ¬(now - 3600000 < now - 7200000) := by omega
    simp [selectedFindings, recentFindings, newFindingsOf, cleanSentFindings,
      finalSentIdsOf, findingTimestamp, oneHourMs, List.filter_cons, h1, h2]

/-- Witness for C6: the 2-hour-old finding of the scenario is rejected
by the recency filter at `now = 7200000`. -/
theorem C6_recency_filter_witness :
    Finding.mk "f2" "t2" none "R1" (some 0)
      ∉ selectedFindings 7200000 [] []
        [Finding.mk "f2" "t2" none "R1" (some 0)] :=
  C6_recency_filter.1 7200000 [] []
    [Finding.mk "f2" "t2" none "R1" (some 0)]
    (Finding.mk "f2" "t2" none "R1" (some 0)) (by decide)

/-- Claim C7: sent-log pruning is monotonic — the pruned log contains no
entry with timestamp at or before `now - 3600000`, every retained entry
was in the input log, and a dropped (stale) entry is never present in the
sent-log a run of `checkAndSendFindings` persists, whatever the fetch
outcome and dispatch outcomes. -/
theorem C7_prune_monotonic :
    ∀ (now : Int) (sentLog : List SentFinding),
      (∀ e ∈ cleanSentFindings now sentLog, now - 3600000 < e.timestamp)
      ∧ (∀ e ∈ cleanSentFindings now sentLog, e ∈ sentLog)
      ∧ ∀ (excluded : List String) (config : NotifyConfig)
          (fetch : FetchOutcome) (outcomes : String → SpawnOutcome)
          (e : SentFinding), e.timestamp ≤ now - 3600000 →
            e ∉ (checkAndSendFindings now excluded sentLog config fetch
              outcomes).sentLog := by
  intro now sentLog
  refine ⟨?_, ?_, ?_⟩
  · intro e he
    have h := (mem_cleanSentFindings.mp he).2
    simp only [oneHourMs] at h
    omega
  · exact fun e he => (mem_cleanSentFindings.mp he).1
  · intro excluded config fetch outcomes e ht hmem
    have h := run_sentLog_recent now excluded sentLog config fetch outcomes
      e hmem
    simp only [oneHourMs] at h
    omega

/-- Witness for C7: a stale entry is gone from the log persisted by a
concrete run. -/
theorem C7_prune_monotonic_witness :
    SentFinding.mk "a" 1000
      ∉ (checkAndSendFindings 7200000 [] [SentFinding.mk "a" 1000]
        { defaultIds := some "dest" } .missingNodes
        (fun _ => .timeout)).sentLog :=
  (C7_prune_monotonic 7200000 [SentFinding.mk "a" 1000]).2.2 []
    { defaultIds := some "dest" } .missingNodes (fun _ => .timeout)
    (SentFinding.mk "a" 1000) (by decide)

/-- Claim C9: for every delay strictly below 1000 ms, the registered
`saveCheckDelay` endpoint returns the configuration error naming the
1-second minimum, leaves the stored delay and the active timer exactly as
they were, and the timer is re-armed only when the call succeeds. -/
theorem C9_saveCheckDelay_minimum :
    (∀ (delay : Int) (st : BackendState), delay < 1000 →
        saveCheckDelayApi delay st
          = (.error "Delay must be at least 1000ms (1 second)", st))
    ∧ ∀ (delay : Int) (st : BackendState),
        (saveCheckDelayApi delay st).2.timer ≠ st.timer →
          (saveCheckDelayApi delay st).1 = .ok () := by
  constructor
  · intro delay st h
    simp [saveCheckDelayApi, saveCheckDelay, if_pos h]
  · intro delay st h
    by_cases hd : delay < 1000
    · exact absurd (by simp [saveCheckDelayApi, saveCheckDelay, if_pos hd]) h
    · simp [saveCheckDelayApi, saveCheckDelay, if_neg hd]

/-- Witness for C9: `saveCheckDelay(500)` fails with the minimum-delay
error and leaves the state, timer included, untouched. -/
theorem C9_saveCheckDelay_minimum_witness :
    saveCheckDelayApi 500 (BackendState.mk 60000 (some (0, 60000)) 1)
      = (.error "Delay must be at least 1000ms (1 second)",
        BackendState.mk 60000 (some (0, 60000)) 1) :=
  C9_saveCheckDelay_minimum.1 500 (BackendState.mk 60000 (some (0, 60000)) 1)
    (by decide)

/-- Claim C8: destination resolution in the dispatch fan-out — every
invocation of a run uses the destination and kind resolved for its
reporter; when a key of the per-reporter map matches the reporter up to
ASCII case, that override's destination and (when configured) kind are
used, and otherwise the default destination and kind are used. -/
theorem C8_destination_resolution :
    (∀ (config : NotifyConfig) (sel : List Finding) (inv : Invocation),
        inv ∈ fanoutInvocations config sel →
          (inv.notifyIds, inv.idsKind)
            = resolveDestination config (config.defaultIds.getD "")
              (config.defaultIdsType.getD IdsKind.id) inv.reporter)
    ∧ (∀ (config : NotifyConfig) (d : String) (dk : IdsKind) (r : String)
        (kv : String × String) (k : IdsKind),
        config.customFindingIds.find?
            (fun p => lowerAscii p.1 == lowerAscii r) = some kv →
          lookupRecord config.customFindingIdsType kv.1 = some k →
            resolveDestination config d dk r = (kv.2, k))
    ∧ (∀ (config : NotifyConfig) (d : String) (dk : IdsKind) (r : String),
        config.customFindingIds.find?
            (fun p => lowerAscii p.1 == lowerAscii r) = none →
          resolveDestination config d dk r = (d, dk))
    ∧ ∀ (now : Int) (excluded : List String) (sentLog : List SentFinding)
        (config : NotifyConfig) (fs : List Finding)
        (outcomes : String → SpawnOutcome),
        selectedFindings now excluded sentLog fs ≠ [] →
        config.defaultIds.getD "" ≠ "" →
          invocationsOf (checkAndSendFindings now excluded sentLog config
            (.nodes fs) outcomes)
          = fanoutInvocations config (selectedFindings now excluded sentLog fs) := by
  refine ⟨?_, ?_, ?_, ?_⟩
  · intro config sel inv hmem
    rcases List.mem_map.mp hmem with ⟨g, -, rfl⟩
    rfl
  · intro config d dk r kv k hfind hlook
    simp only [resolveDestination, hfind, hlook, Option.getD_some]
  · intro config d dk r hfind
    simp only [resolveDestination, hfind]
  · exact fun now excluded sentLog config fs outcomes hsel hdef =>
      run_nodes_invocations now excluded sentLog config fs outcomes hsel hdef

/-- Witness for C8: reporter "SQL Injection" with override key
"sql injection" resolves to the override's destination and kind, not the
defaults. -/
theorem C8_destination_resolution_witness :
    resolveDestination
      { defaultIds := some "default-dest"
        customFindingIds := [("sql injection", "override-dest")]
        customFindingIdsType := [("sql injection", IdsKind.provider)] }
      "default-dest" IdsKind.id "SQL Injection"
      = ("override-dest", IdsKind.provider) :=
  C8_destination_resolution.2.1
    { defaultIds := some "default-dest"
      customFindingIds := [("sql injection", "override-dest")]
      customFindingIdsType := [("sql injection", IdsKind.provider)] }
    "default-dest" IdsKind.id "SQL Injection"
    ("sql injection", "override-dest") IdsKind.provider (by decide) (by decide)

/-- Claim C10: a sent-log entry written by a run carries the finding's
derived creation timestamp (the parsed `createdAt`, or `now` when
unparseable), not the dispatch time; an entry is retained by pruning
exactly when its timestamp is within the hour; consequently a finding
with parseable `createdAt` whose entry is in the log is never selected
again at any later clock value, while a finding with unparseable
`createdAt` is selected again once every log entry bearing its id has
aged past one hour. -/
theorem C10_sentlog_timestamp_invariant :
    (∀ (now : Int) (f : Finding) (t : Int), f.createdAt = some t →
        findingTimestamp now f = t)
    ∧ (∀ (now : Int) (f : Finding), f.createdAt = none →
        findingTimestamp now f = now)
    ∧ (∀ (now : Int) (excluded : List String) (sentLog : List SentFinding)
        (config : NotifyConfig) (fs : List Finding)
        (outcomes : String → SpawnOutcome),
        selectedFindings now excluded sentLog fs ≠ [] →
          (checkAndSendFindings now excluded sentLog config (.nodes fs)
            outcomes).sentLog
          = cleanSentFindings now sentLog
            ++ (selectedFindings now excluded sentLog fs).map
              (fun f => SentFinding.mk f.id (findingTimestamp now f)))
    ∧ (∀ (now2 : Int) (log : List SentFinding) (e : SentFinding), e ∈ log →
        (e ∈ cleanSentFindings now2 log ↔ now2 - 3600000 < e.timestamp))
    ∧ (∀ (now2 : Int) (excluded2 : List String) (log : List SentFinding)
        (fs2 : List Finding) (f : Finding) (t : Int),
        f.createdAt = some t → SentFinding.mk f.id t ∈ log →
          f ∉ selectedFindings now2 excluded2 log fs2)
    ∧ ∀ (now2 : Int) (excluded2 : List String) (log : List SentFinding)
        (fs2 : List Finding) (f : Finding),
        f.createdAt = none → f ∈ fs2 →
        f.id ∉ excluded2 → f.reporter ∉ excluded2 →
        (∀ e ∈ log, e.findingId = f.id → e.timestamp ≤ now2 - 3600000) →
          f ∈ selectedFindings now2 excluded2 log fs2 := by
  refine ⟨?_, ?_, ?_, ?_, ?_, ?_⟩
  · intro now f t hc
    rw [findingTimestamp, hc]
    rfl
  · intro now f hc
    rw [findingTimestamp, hc]
    rfl
  · exact fun now excluded sentLog config fs outcomes hsel =>
      run_nodes_sentLog now excluded sentLog config fs outcomes hsel
  · intro now2 log e he
    rw [mem_cleanSentFindings]
    simp only [oneHourMs]
    exact and_iff_right he
  · exact fun now2 excluded2 log fs2 f t hc hmem =>
      not_selected_of_parseable_logged hc hmem
  · intro now2 excluded2 log fs2 f hc hf hid hrep hold
    refine selected_of_pruned_unparseable hc hf hid hrep ?_
    intro e he heq
    have h := hold e he heq
    simp only [oneHourMs]
    omega

/-- Witness for C10: a finding with parseable `createdAt` whose entry is
in the log is not selected even on a much later run. -/
theorem C10_sentlog_timestamp_invariant_witness :
    Finding.mk "f1" "T" none "R" (some 5)
      ∉ selectedFindings 99999999 [] [SentFinding.mk "f1" 5]
        [Finding.mk "f1" "T" none "R" (some 5)] :=
  C10_sentlog_timestamp_invariant.2.2.2.2.1 99999999 [] [SentFinding.mk "f1" 5]
    [Finding.mk "f1" "T" none "R" (some 5)]
    (Finding.mk "f1" "T" none "R" (some 5)) 5 rfl (by decide)

/-- Claim C1: the dedup filter matches the exclusion list against the
reporter by exact string equality (`Set.has`), so a finding whose
reporter differs from an exclusion entry only in ASCII case is kept,
while a finding whose reporter equals an entry exactly is excluded —
contradicting the documented case-insensitive reporter matching. -/
theorem C1_reporter_exclusion_case_sensitive :
    Finding.mk "f1" "T" none "enhanced file detector" (some 6900000)
      ∈ selectedFindings 7200000 ["Enhanced File Detector"] []
        [Finding.mk "f1" "T" none "enhanced file detector" (some 6900000)]
    ∧ Finding.mk "f1" "T" none "enhanced file detector" (some 6900000)
      ∉ selectedFindings 7200000 ["enhanced file detector"] []
        [Finding.mk "f1" "T" none "enhanced file detector" (some 6900000)] := by
  decide

/-- Claim C2 (amended): a run that fetched findings fails with
"No notify IDs configured" iff the default destination resolves empty
and the run selected findings to dispatch — per-reporter overrides do
not prevent the abort — and when that error is returned no notifier
invocation has been started. -/
theorem C2_default_destination_check :
    ∀ (now : Int) (excluded : List String) (sentLog : List SentFinding)
      (config : NotifyConfig) (fs : List Finding)
      (outcomes : String → SpawnOutcome),
      ((checkAndSendFindings now excluded sentLog config (.nodes fs)
          outcomes).result = .error "No notify IDs configured"
        ↔ config.defaultIds.getD "" = ""
            ∧ selectedFindings now excluded sentLog fs ≠ [])
      ∧ ((checkAndSendFindings now excluded sentLog config (.nodes fs)
            outcomes).result = .error "No notify IDs configured" →
          invocationsOf (checkAndSendFindings now excluded sentLog config
            (.nodes fs) outcomes) = []) := by
  intro now excluded sentLog config fs outcomes
  by_cases hsel : selectedFindings now excluded sentLog fs = []
  · have hok := run_nodes_empty_result now excluded sentLog config fs
      outcomes hsel
    constructor
    · rw [hok]
      simp [hsel]
    · intro h
      rw [hok] at h
      exact absurd h (by simp)
  · by_cases hdef : config.defaultIds.getD "" = ""
    · have h := run_nodes_noDefault now excluded sentLog config fs outcomes
        hsel hdef
      constructor
      · rw [h.1]
        simp [hdef, hsel]
      · exact fun _ => h.2
    · have hok := run_nodes_result_ok now excluded sentLog config fs
        outcomes hdef
      constructor
      · rw [hok]
        simp [hdef]
      · intro h
        rw [hok] at h
        exact absurd h (by simp)

/-- Counterexample to claim C2 as stated: with an empty default
destination and an override configured for the only reporter group being
dispatched, the run still aborts with "No notify IDs configured" and
starts no invocation. -/
theorem C2_counterexample :
    (checkAndSendFindings 7200000 [] []
        { defaultIds := none, customFindingIds := [("R", "rid")] }
        (.nodes [Finding.mk "f1" "T" none "R" (some 6900000)])
        (fun _ => .exited 0)).result = .error "No notify IDs configured"
    ∧ invocationsOf (checkAndSendFindings 7200000 [] []
        { defaultIds := none, customFindingIds := [("R", "rid")] }
        (.nodes [Finding.mk "f1" "T" none "R" (some 6900000)])
        (fun _ => .exited 0)) = []
    ∧ selectedFindings 7200000 [] []
        [Finding.mk "f1" "T" none "R" (some 6900000)]
      = [Finding.mk "f1" "T" none "R" (some 6900000)]
    ∧ ({ defaultIds := none, customFindingIds := [("R", "rid")] }
        : NotifyConfig).customFindingIds.find?
          (fun p => lowerAscii p.1 == lowerAscii "R") = some ("R", "rid") := by
  decide

/-- Witness for C2: the amended characterisation applied at the
counterexample input. -/
theorem C2_default_destination_check_witness :
    invocationsOf (checkAndSendFindings 7200000 [] []
      { defaultIds := none, customFindingIds := [("R", "rid")] }
      (.nodes [Finding.mk "f1" "T" none "R" (some 6900000)])
      (fun _ => .exited 0)) = [] :=
  (C2_default_destination_check 7200000 [] []
    { defaultIds := none, customFindingIds := [("R", "rid")] }
    [Finding.mk "f1" "T" none "R" (some 6900000)]
    (fun _ => .exited 0)).2 (by decide)

/-- Claim C3 (amended): per-group dispatch outcomes are fully isolated —
a non-zero exit code and the 30-second timeout settle a group's promise
as success, a spawn error settles it as an error, and all settled
per-group results are discarded, so no per-group outcome (spawn errors
included) makes the overall result of a run that resolved a default
destination anything but success. -/
theorem C3_dispatch_isolation :
    (∀ (now : Int) (excluded : List String) (sentLog : List SentFinding)
        (config : NotifyConfig) (fs : List Finding)
        (outcomes : String → SpawnOutcome),
        config.defaultIds.getD "" ≠ "" →
          (checkAndSendFindings now excluded sentLog config (.nodes fs)
            outcomes).result = .ok ())
    ∧ (∀ c : Int, sendPromiseResult (.exited c) = .ok ())
    ∧ sendPromiseResult .timeout = .ok ()
    ∧ (∀ m : String, sendPromiseResult (.spawnError m)
        = .error ("Failed to execute notify: " ++ m))
    ∧ ∀ (now : Int) (excluded : List String) (sentLog : List SentFinding)
        (config : NotifyConfig) (fs : List Finding)
        (outcomes : String → SpawnOutcome),
        selectedFindings now excluded sentLog fs ≠ [] →
        config.defaultIds.getD "" ≠ "" →
          (checkAndSendFindings now excluded sentLog config (.nodes fs)
            outcomes).groupResults
          = (fanoutInvocations config
              (selectedFindings now excluded sentLog fs)).map
            (fun inv => sendPromiseResult (outcomes inv.reporter)) := by
  refine ⟨?_, fun c => rfl, rfl, fun m => rfl, ?_⟩
  · exact fun now excluded sentLog config fs outcomes hdef =>
      run_nodes_result_ok now excluded sentLog config fs outcomes hdef
  · exact fun now excluded sentLog config fs outcomes hsel hdef =>
      run_nodes_groupResults now excluded sentLog config fs outcomes hsel hdef

/-- Counterexample to claim C3 as stated: a run whose only group suffers
a spawn error still returns overall success — the group's error result
is settled but discarded. -/
theorem C3_counterexample :
    (checkAndSendFindings 7200000 [] [] { defaultIds := some "dest" }
        (.nodes [Finding.mk "f1" "T" none "R" (some 6900000)])
        (fun _ => .spawnError "boom")).result = .ok ()
    ∧ (checkAndSendFindings 7200000 [] [] { defaultIds := some "dest" }
        (.nodes [Finding.mk "f1" "T" none "R" (some 6900000)])
        (fun _ => .spawnError "boom")).groupResults
      = [.error "Failed to execute notify: boom"] := by
  decide

/-- Witness for C3: the overall-success component applied at the
spawn-error input. -/
theorem C3_dispatch_isolation_witness :
    (checkAndSendFindings 7200000 [] [] { defaultIds := some "dest" }
      (.nodes [Finding.mk "f2" "T" none "R" (some 6900000)])
      (fun _ => .spawnError "late")).result = .ok () :=
  C3_dispatch_isolation.1 7200000 [] [] { defaultIds := some "dest" }
    [Finding.mk "f2" "T" none "R" (some 6900000)]
    (fun _ => .spawnError "late") (by decide)

/-- Claim C4 (amended): when the findings query fails — GraphQL error
response or thrown fetch error — the run returns an error, starts no
invocation, and records no new sent-log entry; the only state change is
the unconditional pruning of stale entries, which happens before the
query, so the persisted log equals the pruned input log. -/
theorem C4_fetch_failure_state :
    ∀ (now : Int) (excluded : List String) (sentLog : List SentFinding)
      (config : NotifyConfig) (outcomes : String → SpawnOutcome),
      (∀ (m : String) (ms : List String),
        (checkAndSendFindings now excluded sentLog config (.gqlErrors m ms)
            outcomes).result
          = .error ("GraphQL query failed: "
              ++ String.intercalate ", " (m :: ms))
        ∧ (checkAndSendFindings now excluded sentLog config (.gqlErrors m ms)
            outcomes).sentLog = cleanSentFindings now sentLog
        ∧ invocationsOf (checkAndSendFindings now excluded sentLog config
            (.gqlErrors m ms) outcomes) = [])
      ∧ ∀ m : String,
        (checkAndSendFindings now excluded sentLog config (.thrown m)
            outcomes).result = .error ("Failed to check findings: " ++ m)
        ∧ (checkAndSendFindings now excluded sentLog config (.thrown m)
            outcomes).sentLog = cleanSentFindings now sentLog
        ∧ invocationsOf (checkAndSendFindings now excluded sentLog config
            (.thrown m) outcomes) = [] := by
  intro now excluded sentLog config outcomes
  constructor
  · intro m ms
    refine ⟨rfl, ?_, ?_⟩
    · simp only [checkAndSendFindings, prunedLog_eq_clean]
    · simp only [checkAndSendFindings, invocationsOf]
      split <;> simp
  · intro m
    refine ⟨rfl, ?_, ?_⟩
    · simp only [checkAndSendFindings, prunedLog_eq_clean]
    · simp only [checkAndSendFindings, invocationsOf]
      split <;> simp

/-- Counterexample to claim C4 as stated: a run whose query fails still
changed the persisted sent-log — the stale entry was pruned before the
query, so the log before and after the failing run differ. -/
theorem C4_counterexample :
    (checkAndSendFindings 7200000 [] [SentFinding.mk "old" 0]
        { defaultIds := some "dest" } (.gqlErrors "boom" [])
        (fun _ => .exited 0)).result
      = .error ("GraphQL query failed: "
          ++ String.intercalate ", " ("boom" :: []))
    ∧ (checkAndSendFindings 7200000 [] [SentFinding.mk "old" 0]
        { defaultIds := some "dest" } (.gqlErrors "boom" [])
        (fun _ => .exited 0)).sentLog = []
    ∧ [SentFinding.mk "old" 0] ≠ ([] : List SentFinding) := by
  refine ⟨rfl, by decide, by decide⟩

/-- Claim C5 (amended): every selected finding's id is persisted to the
sent-log strictly before any notifier invocation of the run is started
(the event trace has the save before every invoke); consequently a
finding with parseable `createdAt` is never selected again on any
subsequent run using that log, and a finding with unparseable
`createdAt` is not selected again as long as its log entry is within the
one-hour window — it can be selected again once the entry ages past one
hour, dispatch failures notwithstanding. -/
theorem C5_save_before_dispatch :
    (∀ (now : Int) (excluded : List String) (sentLog : List SentFinding)
        (config : NotifyConfig) (fs : List Finding)
        (outcomes : String → SpawnOutcome),
        selectedFindings now excluded sentLog fs ≠ [] →
          ∃ pre post,
            (checkAndSendFindings now excluded sentLog config (.nodes fs)
              outcomes).events
              = pre ++ Event.saveSent ((checkAndSendFindings now excluded
                  sentLog config (.nodes fs) outcomes).sentLog) :: post
            ∧ (∀ inv : Invocation, Event.invoke inv ∉ pre)
            ∧ ∀ f ∈ selectedFindings now excluded sentLog fs,
                SentFinding.mk f.id (findingTimestamp now f)
                  ∈ (checkAndSendFindings now excluded sentLog config
                    (.nodes fs) outcomes).sentLog)
    ∧ (∀ (now2 : Int) (excluded2 : List String) (log : List SentFinding)
        (fs2 : List Finding) (f : Finding) (t : Int),
        f.createdAt = some t → SentFinding.mk f.id t ∈ log →
          f ∉ selectedFindings now2 excluded2 log fs2)
    ∧ ∀ (now2 : Int) (excluded2 : List String) (log : List SentFinding)
        (fs2 : List Finding) (f : Finding) (t : Int),
        SentFinding.mk f.id t ∈ log → now2 - 3600000 < t →
          f ∉ selectedFindings now2 excluded2 log fs2 := by
  refine ⟨?_, ?_, ?_⟩
  · intro now excluded sentLog config fs outcomes hsel
    have hmemlog : ∀ f ∈ selectedFindings now excluded sentLog fs,
        SentFinding.mk f.id (findingTimestamp now f)
          ∈ (checkAndSendFindings now excluded sentLog config (.nodes fs)
            outcomes).sentLog := by
      intro f hf
      rw [run_nodes_sentLog now excluded sentLog config fs outcomes hsel]
      exact List.mem_append.mpr (Or.inr (List.mem_map.mpr ⟨f, hf, rfl⟩))
    have hpre : ∀ inv : Invocation, Event.invoke inv
        ∉ (if (cleanSentFindings now sentLog).length ≠ sentLog.length
          then [Event.saveSent (cleanSentFindings now sentLog)] else []) := by
      intro inv hmem
      split at hmem <;> simp_all
    by_cases hdef : config.defaultIds.getD "" = ""
    · refine ⟨(if (cleanSentFindings now sentLog).length ≠ sentLog.length
        then [Event.saveSent (cleanSentFindings now sentLog)] else []),
        [], ?_, hpre, hmemlog⟩
      rw [run_nodes_events_noDefault now excluded sentLog config fs outcomes
        hsel hdef,
        run_nodes_sentLog now excluded sentLog config fs outcomes hsel]
    · refine ⟨(if (cleanSentFindings now sentLog).length ≠ sentLog.length
        then [Event.saveSent (cleanSentFindings now sentLog)] else []),
        (fanoutInvocations config
          (selectedFindings now excluded sentLog fs)).map Event.invoke,
        ?_, hpre, hmemlog⟩
      rw [run_nodes_events_dispatch now excluded sentLog config fs outcomes
        hsel hdef,
        run_nodes_sentLog now excluded sentLog config fs outcomes hsel]
  · exact fun now2 excluded2 log fs2 f t hc hmem =>
      not_selected_of_parseable_logged hc hmem
  · intro now2 excluded2 log fs2 f t hmem ht
    refine not_selected_of_logged_entry hmem ?_
    simp only [oneHourMs]
    omega

/-- Counterexample to claim C5 as stated: a finding with unparseable
`createdAt` is selected and logged by a first run whose only dispatch
suffers a spawn error, yet a run more than one hour later, using exactly
the log the first run persisted, selects the same finding id again. -/
theorem C5_counterexample :
    selectedFindings 1000 [] [] [Finding.mk "f1" "T" none "R" none]
      = [Finding.mk "f1" "T" none "R" none]
    ∧ (checkAndSendFindings 1000 [] [] { defaultIds := some "dest" }
        (.nodes [Finding.mk "f1" "T" none "R" none])
        (fun _ => .spawnError "x")).sentLog = [SentFinding.mk "f1" 1000]
    ∧ (checkAndSendFindings 1000 [] [] { defaultIds := some "dest" }
        (.nodes [Finding.mk "f1" "T" none "R" none])
        (fun _ => .spawnError "x")).groupResults
      = [.error "Failed to execute notify: x"]
    ∧ Finding.mk "f1" "T" none "R" none
      ∈ selectedFindings 3601001 []
        (checkAndSendFindings 1000 [] [] { defaultIds := some "dest" }
          (.nodes [Finding.mk "f1" "T" none "R" none])
          (fun _ => .spawnError "x")).sentLog
        [Finding.mk "f1" "T" none "R" none] := by
  decide

/-- Witness for C5: the parseable-case component applied at a concrete
log and clock. -/
theorem C5_save_before_dispatch_witness :
    Finding.mk "g1" "T" none "R" (some 7)
      ∉ selectedFindings 5000000 [] [SentFinding.mk "g1" 7]
        [Finding.mk "g1" "T" none "R" (some 7)] :=
  C5_save_before_dispatch.2.1 5000000 [] [SentFinding.mk "g1" 7]
    [Finding.mk "g1" "T" none "R" (some 7)]
    (Finding.mk "g1" "T" none "R" (some 7)) 7 rfl (by decide)

end CaidoNotify
